import Mathlib

/-!
Verification model of the qtaskdist task-distribution engine.

The definitions below are a shallow embedding of the repository's code:

* `json_dumps` / `json_loads` model Python's `json.dumps` (default separators,
  escaping of the double quote and the backslash; the `\uXXXX` escaping of
  control and non-ASCII characters and float literals are not modelled, and
  the parser accepts leading zeros that `json.loads` rejects — none of these
  differences matter for the properties proved here) and `json.loads`.
* `pyReplace` models Python's single-character `str.replace`.
* `enqueue_task` embeds `qtaskdist_api/queue_manager.py`.
* `crud_create_task`, `update_task` and `create_task_route` embed
  `qtaskdist_api/crud_task.py` and the `POST /tasks` route of
  `qtaskdist_api/main.py`.
* `parse_task`, `update_task_status`, `process_message` and
  `start_consuming` embed `qtaskdist_worker/circuit_processor.py`.

Database sessions, Redis connections and `await` points are elided; reads and
writes against the task store are explicit state passing over a `List TaskRec`,
and every observable side effect (SQL update statements, `print` calls, stream
acknowledgments, the invocation of the processor function, back-off sleeps)
is recorded in an explicit `Event` trace.
-/

namespace QTaskDist

/-! ## JSON values

Python `dict`/`list`/`str`/`int`/`bool`/`None` payloads are modelled by a
mutual inductive so that all recursion over values is structural. -/

mutual
inductive Json where
  | null : Json
  | bool (b : Bool) : Json
  | num (n : Int) : Json
  | str (s : List Char) : Json
  | arr (elems : JsonList) : Json
  | obj (members : JsonMembers) : Json

inductive JsonList where
  | nil : JsonList
  | cons (hd : Json) (tl : JsonList) : JsonList

inductive JsonMembers where
  | nil : JsonMembers
  | cons (key : List Char) (val : Json) (tl : JsonMembers) : JsonMembers
end

/-- Double-quote character. -/
def dqCh : Char := Char.ofNat 34
/-- Single-quote character. -/
def sqCh : Char := Char.ofNat 39
/-- Backslash character. -/
def bslCh : Char := Char.ofNat 92
/-- Opening square bracket. -/
def lbrkCh : Char := Char.ofNat 91
/-- Closing square bracket. -/
def rbrkCh : Char := Char.ofNat 93
/-- Opening curly brace. -/
def lbrCh : Char := Char.ofNat 123
/-- Closing curly brace. -/
def rbrCh : Char := Char.ofNat 125
/-- Comma. -/
def commaCh : Char := Char.ofNat 44
/-- Colon. -/
def colonCh : Char := Char.ofNat 58
/-- Minus sign. -/
def minusCh : Char := Char.ofNat 45
/-- Space. -/
def spaceCh : Char := Char.ofNat 32
/-- Forward slash. -/
def slashCh : Char := Char.ofNat 47

/-- JSON string escaping of a single character, as `json.dumps` performs it
on the double quote and the backslash (other characters are emitted as is). -/
def escChar (c : Char) : List Char :=
  if c = dqCh ∨ c = bslCh then [bslCh, c] else [c]

/-- JSON string escaping, character by character. -/
def escString : List Char → List Char
  | [] => []
  | c :: cs => escChar c ++ escString cs

/-- Decimal digit character for a value below ten. -/
def digitChar (n : Nat) : Char := Char.ofNat (48 + n)

/-- Fuel-driven decimal printer (most significant digit first). -/
def natToDigitsAux : Nat → Nat → List Char
  | 0, _ => []
  | fuel + 1, n =>
    if n < 10 then [digitChar n]
    else natToDigitsAux fuel (n / 10) ++ [digitChar (n % 10)]

/-- Decimal representation of a natural number, as `str` produces it. -/
def natToDigits (n : Nat) : List Char := natToDigitsAux (n + 1) n

/-- Decimal representation of an integer, as `str` produces it. -/
def intToDigits (n : Int) : List Char :=
  if n < 0 then minusCh :: natToDigits n.natAbs else natToDigits n.toNat

/-- Serialized form of the `null` literal. -/
def litNull : List Char := "null".toList

/-- Serialized form of the `true` literal. -/
def litTrue : List Char := "true".toList

/-- Serialized form of the `false` literal. -/
def litFalse : List Char := "false".toList

mutual
/-- Model of `json.dumps` with the default separators: item separator
comma-space, key separator colon-space. -/
def dumpVal : Json → List Char
  | .null => litNull
  | .bool true => litTrue
  | .bool false => litFalse
  | .num n => intToDigits n
  | .str s => dqCh :: (escString s ++ [dqCh])
  | .arr xs => lbrkCh :: (dumpItems xs ++ [rbrkCh])
  | .obj ms => lbrCh :: (dumpMembers ms ++ [rbrCh])

/-- Serialization of the element list of a JSON array. -/
def dumpItems : JsonList → List Char
  | .nil => []
  | .cons x .nil => dumpVal x
  | .cons x (.cons y rest) =>
      dumpVal x ++ commaCh :: spaceCh :: dumpItems (.cons y rest)

/-- Serialization of the member list of a JSON object. -/
def dumpMembers : JsonMembers → List Char
  | .nil => []
  | .cons k v .nil =>
      dqCh :: (escString k ++ [dqCh]) ++ colonCh :: spaceCh :: dumpVal v
  | .cons k v (.cons k2 v2 rest) =>
      dqCh :: (escString k ++ [dqCh]) ++ colonCh :: spaceCh :: dumpVal v ++
        commaCh :: spaceCh :: dumpMembers (.cons k2 v2 rest)
end

/-- Whitespace as skipped by `json.loads`. -/
def isWs (c : Char) : Bool :=
  c = spaceCh ∨ c = Char.ofNat 10 ∨ c = Char.ofNat 9 ∨ c = Char.ofNat 13

/-- Drop leading whitespace. -/
def skipWs : List Char → List Char
  | [] => []
  | c :: cs => if isWs c then skipWs cs else c :: cs

/-- ASCII decimal digit test. -/
def isDigit (c : Char) : Bool := 48 ≤ c.toNat ∧ c.toNat ≤ 57

/-- Consume a maximal run of digits, folding them onto an accumulator. -/
def readDigits : List Char → Nat → Nat × List Char
  | c :: cs, acc =>
      if isDigit c then readDigits cs (10 * acc + (c.toNat - 48)) else (acc, c :: cs)
  | [], acc => (acc, [])

/-- Parse the body of a JSON string literal after its opening quote, undoing
the escapes `escChar` can produce (plus the escaped forward slash that
`json.loads` also accepts). -/
def parseStrBody : List Char → Option (List Char × List Char)
  | [] => none
  | [c] => if c = dqCh then some ([], []) else none
  | c :: d :: cs2 =>
    if c = dqCh then some ([], d :: cs2)
    else if c = bslCh then
      if d = dqCh ∨ d = bslCh ∨ d = slashCh then
        match parseStrBody cs2 with
        | some (s, r) => some (d :: s, r)
        | none => none
      else none
    else
      match parseStrBody (d :: cs2) with
      | some (s, r) => some (c :: s, r)
      | none => none

mutual
/-- Fuel-driven recursive-descent JSON value parser modelling `json.loads`. -/
def parseVal : Nat → List Char → Option (Json × List Char)
  | 0, _ => none
  | f + 1, cs =>
    match skipWs cs with
    | [] => none
    | c :: cs1 =>
      if c = dqCh then
        match parseStrBody cs1 with
        | some (s, r) => some (.str s, r)
        | none => none
      else if c = lbrkCh then
        match skipWs cs1 with
        | [] => none
        | c2 :: cs2 =>
          if c2 = rbrkCh then some (.arr .nil, cs2)
          else
            match parseItems f (c2 :: cs2) with
            | some (vs, r) => some (.arr vs, r)
            | none => none
      else if c = lbrCh then
        match skipWs cs1 with
        | [] => none
        | c2 :: cs2 =>
          if c2 = rbrCh then some (.obj .nil, cs2)
          else
            match parseMembers f (c2 :: cs2) with
            | some (ms, r) => some (.obj ms, r)
            | none => none
      else if c = minusCh then
        match cs1 with
        | [] => none
        | d :: cs2 =>
          if isDigit d then
            match readDigits (d :: cs2) 0 with
            | (n, r) => some (.num (-(n : Int)), r)
          else none
      else if isDigit c then
        match readDigits (c :: cs1) 0 with
        | (n, r) => some (.num (n : Int), r)
      else if c = 'n' then
        match cs1 with
        | 'u' :: 'l' :: 'l' :: r => some (.null, r)
        | _ => none
      else if c = 't' then
        match cs1 with
        | 'r' :: 'u' :: 'e' :: r => some (.bool true, r)
        | _ => none
      else if c = 'f' then
        match cs1 with
        | 'a' :: 'l' :: 's' :: 'e' :: r => some (.bool false, r)
        | _ => none
      else none

/-- Parse the remaining elements of a non-empty JSON array, including the
closing bracket. -/
def parseItems : Nat → List Char → Option (JsonList × List Char)
  | 0, _ => none
  | f + 1, cs =>
    match parseVal f cs with
    | none => none
    | some (v, r) =>
      match skipWs r with
      | [] => none
      | c :: r2 =>
        if c = commaCh then
          match parseItems f r2 with
          | some (vs, r3) => some (.cons v vs, r3)
          | none => none
        else if c = rbrkCh then some (.cons v .nil, r2)
        else none

/-- Parse the remaining members of a non-empty JSON object, including the
closing brace. -/
def parseMembers : Nat → List Char → Option (JsonMembers × List Char)
  | 0, _ => none
  | f + 1, cs =>
    match skipWs cs with
    | [] => none
    | c :: cs1 =>
      if c = dqCh then
        match parseStrBody cs1 with
        | none => none
        | some (k, r) =>
          match skipWs r with
          | [] => none
          | c2 :: r2 =>
            if c2 = colonCh then
              match parseVal f r2 with
              | none => none
              | some (v, r3) =>
                match skipWs r3 with
                | [] => none
                | c3 :: r4 =>
                  if c3 = commaCh then
                    match parseMembers f r4 with
                    | some (ms, r5) => some (.cons k v ms, r5)
                    | none => none
                  else if c3 = rbrCh then some (.cons k v .nil, r4)
                  else none
            else none
      else none
end

/-- Model of `json.loads`: parse one value and require only trailing
whitespace after it; `none` models a raised `JSONDecodeError`. -/
def json_loads (s : List Char) : Option Json :=
  match parseVal (s.length + 1) s with
  | some (v, r) => if skipWs r = [] then some v else none
  | none => none

/-- Model of Python `str.replace` with single-character arguments. -/
def pyReplace (s : List Char) (old new : Char) : List Char :=
  s.map fun c => if c = old then new else c

mutual
/-- Parser-fuel measure of a JSON value. -/
def sizeV : Json → Nat
  | .null => 1
  | .bool _ => 1
  | .num _ => 1
  | .str _ => 1
  | .arr xs => 1 + sizeI xs
  | .obj ms => 1 + sizeM ms

/-- Parser-fuel measure of a JSON array's elements. -/
def sizeI : JsonList → Nat
  | .nil => 0
  | .cons v vs => 1 + sizeV v + sizeI vs

/-- Parser-fuel measure of a JSON object's members. -/
def sizeM : JsonMembers → Nat
  | .nil => 0
  | .cons _ v ms => 1 + sizeV v + sizeM ms
end

/-- The remainder after a serialized number must not begin with a digit
(inside serializer output it begins with a separator or a closing
bracket). -/
def headNotDigit : List Char → Prop
  | [] => True
  | c :: _ => isDigit c = false

example :
    json_loads (dumpVal (.obj (.cons ['a'] (.num 1)
      (.cons ['b'] (.arr (.cons (.num (-2)) (.cons (.str ['x'])
        (.cons (.bool true) (.cons .null .nil))))) .nil)))) =
    some (.obj (.cons ['a'] (.num 1)
      (.cons ['b'] (.arr (.cons (.num (-2)) (.cons (.str ['x'])
        (.cons (.bool true) (.cons .null .nil))))) .nil))) := by rfl

example :
    json_loads (pyReplace (dumpVal (.obj (.cons ['m']
      (.str ['i', 't', sqCh, 's']) .nil))) sqCh dqCh) = none := by rfl

example : json_loads [lbrCh, rbrCh] = some (.obj .nil) := by rfl

/-! ## Task store data model

One record per row of the `tasks` table (`models.py` in both packages;
identical column definitions). Timestamps are abstract `Nat` instants;
identifiers are strings. -/

structure TaskRec where
  task_id : String
  task_type : String
  status : String
  payload : Json
  result : Option Json
  error : Option String
  retry_count : Int
  max_retries : Int
  scheduled_for : Option Nat
  meta_data : Json
  created_at : Nat
  updated_at : Nat

/-- Hexadecimal digit test (for UUID validation). -/
def isHexDigit (c : Char) : Bool :=
  isDigit c ∨ (97 ≤ c.toNat ∧ c.toNat ≤ 102) ∨ (65 ≤ c.toNat ∧ c.toNat ≤ 70)

/-- Hyphen character. -/
def hyphenCh : Char := Char.ofNat 45

/-- Whether Python's `uuid.UUID(s)` accepts the string: thirty-two
hexadecimal digits once hyphens are removed. -/
def uuidOk (s : String) : Bool :=
  let cs := s.toList.filter (fun c => ¬ c = hyphenCh)
  cs.length = 32 ∧ cs.all isHexDigit

/-- Whether `uuid.UUID(task_id)` succeeds for the (possibly absent) task id
of a parsed envelope; `UUID(None)` raises `TypeError`, modelled by `false`. -/
def uuidArgOk : Option String → Bool
  | none => false
  | some s => uuidOk s

/-! ## Observable events of the worker

Each constructor records one observable action of
`qtaskdist_worker/circuit_processor.py`: an issued status-update call, the
committed SQL `UPDATE` statement, a `print` call, the invocation of the
processor function, a stream acknowledgment (`xack`), or a back-off sleep.
`logWarning` is never produced by the code; it exists so that the absence of
a warning log can be stated. -/

inductive Event where
  | statusUpdateCall (task_id : Option String) (status : String)
  | dbUpdate (task_id : String) (status : String) (result : Option Json)
      (error : Option String) (matched : Bool)
  | logUpdated (task_id : Option String) (status : String)
  | logUpdateError (task_id : Option String)
  | logWarning (msg : String)
  | logProcessing (task_id : Option String) (stream : String)
  | logCompleted (task_id : Option String)
  | logMessageError (message_id : String) (err : String)
  | logConsumerError (err : String)
  | logCancelled
  | execute
  | ack (stream : String) (group : String) (message_id : String)
  | sleep (seconds : Nat)

/-- Whether an event is a stream acknowledgment. -/
def Event.isAck : Event → Bool
  | .ack _ _ _ => true
  | _ => false

/-- Whether an event is a warning log. -/
def Event.isWarning : Event → Bool
  | .logWarning _ => true
  | _ => false

/-- Whether an event is a committed SQL update statement. -/
def Event.isDbUpdate : Event → Bool
  | .dbUpdate _ _ _ _ _ => true
  | _ => false

/-- Model of `QueueProcessor.update_task_status`: build the update values
(`status` and `updated_at` always; `result` and `error` only when not
`None`), issue one `UPDATE ... WHERE task_id = uuid` statement and commit.
Every exception (in particular a `task_id` that `UUID` rejects) is caught,
logged and rolled back, so the call never propagates an error. A valid
`task_id` matching no row succeeds with rowcount zero and still prints the
normal success line. -/
def update_task_status (store : List TaskRec) (task_id : Option String)
    (status : String) (result : Option Json) (error : Option String)
    (now : Nat) : List TaskRec × List Event :=
  if uuidArgOk task_id then
    let tid := task_id.getD ""
    let applyRow := fun (t : TaskRec) =>
      if t.task_id = tid then
        let t1 := { t with status := status, updated_at := now }
        let t2 := match result with
          | some r => { t1 with result := some r }
          | none => t1
        match error with
          | some e => { t2 with error := some e }
          | none => t2
      else t
    (store.map applyRow,
     [.statusUpdateCall task_id status,
      .dbUpdate tid status result error (store.any (fun t => t.task_id = tid)),
      .logUpdated task_id status])
  else
    (store, [.statusUpdateCall task_id status, .logUpdateError task_id])

/-! ## Stream messages and envelope decoding -/

/-- A delivered Redis Stream entry's field map, with `dict.get` access
modelled by `Option` fields (`decode_responses=True`, so values are
strings). The payload is kept as a character list. -/
structure StreamMessage where
  task_id : Option String
  task_type : Option String
  payload : Option (List Char)
  created_at : Option String

/-- The dictionary `QueueProcessor.parse_task` returns. -/
structure ParsedTask where
  task_id : Option String
  task_type : Option String
  payload : Option Json
  created_at : Option String

/-- Model of `QueueProcessor.parse_task`: when the payload field is a
string, every single quote in it is replaced by a double quote and the
result is parsed as JSON; a parse failure raises `ValueError` (modelled by
`Except.error`). An absent payload is passed through as `None`. -/
def parse_task (m : StreamMessage) : Except String ParsedTask :=
  match m.payload with
  | some s =>
    match json_loads (pyReplace s sqCh dqCh) with
    | some p => .ok ⟨m.task_id, m.task_type, some p, m.created_at⟩
    | none => .error "Failed to parse task"
  | none => .ok ⟨m.task_id, m.task_type, none, m.created_at⟩

/-- Model of `QueueProcessor.process_message`. The success path updates the
task to `processing`, invokes the processor function, updates to `completed`
with the result and acknowledges the message. Any raised failure lands in
the `except` branch: it is logged, the message is re-parsed, and on success
the task is updated to `failed` with the stringified error; a re-parse
failure is swallowed (`except: pass`). No path other than success
acknowledges. -/
def process_message (store : List TaskRec) (stream : String)
    (message_id : String) (m : StreamMessage)
    (proc : ParsedTask → Except String Json) (group : String) (now : Nat) :
    List TaskRec × List Event :=
  match parse_task m with
  | .error e => (store, [.logMessageError message_id e])
  | .ok task =>
    let ev0 : List Event := [.logProcessing task.task_id stream]
    let r1 := update_task_status store task.task_id "processing" none none now
    match proc task with
    | .ok result =>
      let r2 := update_task_status r1.1 task.task_id "completed" (some result) none now
      (r2.1, ev0 ++ r1.2 ++ [.execute] ++ r2.2 ++
        [.ack stream group message_id, .logCompleted task.task_id])
    | .error e =>
      let r2 := update_task_status r1.1 task.task_id "failed" none (some e) now
      (r2.1, ev0 ++ r1.2 ++ [.execute, .logMessageError message_id e] ++ r2.2)

/-! ## The consume loop -/

/-- Messages of one delivered stream batch: `(message_id, fields)` pairs. -/
abbrev MsgBatch := List (String × StreamMessage)

/-- Process the messages of one stream's batch in order (the inner loop of
`start_consuming`); `process_message` swallows all errors, so every message
is processed regardless of earlier outcomes. -/
def process_messages (store : List TaskRec) (stream : String)
    (msgs : MsgBatch) (proc : ParsedTask → Except String Json)
    (group : String) (now : Nat) : List TaskRec × List Event :=
  match msgs with
  | [] => (store, [])
  | (mid, m) :: rest =>
    let r1 := process_message store stream mid m proc group now
    let r2 := process_messages r1.1 stream rest proc group now
    (r2.1, r1.2 ++ r2.2)

/-- Process one `xreadgroup` result: a list of `(stream, messages)` pairs. -/
def process_batches (store : List TaskRec)
    (batches : List (String × MsgBatch))
    (proc : ParsedTask → Except String Json) (group : String) (now : Nat) :
    List TaskRec × List Event :=
  match batches with
  | [] => (store, [])
  | (stream, msgs) :: rest =>
    let r1 := process_messages store stream msgs proc group now
    let r2 := process_batches r1.1 rest proc group now
    (r2.1, r1.2 ++ r2.2)

/-- Outcome of one blocking poll in the consume loop: the read returns a
batch (possibly empty), raises `asyncio.CancelledError`, or raises some
other infrastructure error. -/
inductive PollResult where
  | cancelled : PollResult
  | pollError (e : String) : PollResult
  | messages (batches : List (String × MsgBatch)) : PollResult

/-- Whether a poll outcome is a cancellation. -/
def PollResult.isCancelled : PollResult → Bool
  | .cancelled => true
  | _ => false

/-- One iteration of the `while True` body of
`QueueProcessor.start_consuming`: cancellation logs and breaks (`none`);
any other error is logged, followed by a five-second back-off sleep, and the
loop continues; a delivered batch is processed message by message. -/
def consume_step (store : List TaskRec)
    (proc : ParsedTask → Except String Json) (group : String) (now : Nat) :
    PollResult → Option (List TaskRec × List Event)
  | .cancelled => none
  | .pollError e => some (store, [.logConsumerError e, .sleep 5])
  | .messages batches => some (process_batches store batches proc group now)

/-- Model of `QueueProcessor.start_consuming` driven by a finite trace of
poll outcomes. Returns the final store, the event trace, and whether the
loop exited (`true` only on cancellation; `false` means the poll trace was
exhausted with the loop still running). -/
def start_consuming (store : List TaskRec)
    (proc : ParsedTask → Except String Json) (group : String) (now : Nat) :
    List PollResult → List TaskRec × List Event × Bool
  | [] => (store, [], false)
  | pr :: rest =>
    match consume_step store proc group now pr with
    | none => (store, [.logCancelled], true)
    | some (s2, evs) =>
      let r := start_consuming s2 proc group now rest
      (r.1, evs ++ r.2.1, r.2.2)

/-! ## Structural equality on JSON values

Python compares column values with `==` when deciding whether a flushed
object has net changes; these functions model that comparison. -/

mutual
/-- Structural equality test on JSON values. -/
def beqJson : Json → Json → Bool
  | .null, .null => true
  | .bool a, .bool b => a = b
  | .num a, .num b => a = b
  | .str a, .str b => a = b
  | .arr a, .arr b => beqJsonList a b
  | .obj a, .obj b => beqJsonMembers a b
  | _, _ => false

/-- Structural equality test on JSON array elements. -/
def beqJsonList : JsonList → JsonList → Bool
  | .nil, .nil => true
  | .cons a as, .cons b bs => beqJson a b ∧ beqJsonList as bs
  | _, _ => false

/-- Structural equality test on JSON object members. -/
def beqJsonMembers : JsonMembers → JsonMembers → Bool
  | .nil, .nil => true
  | .cons ka va as, .cons kb vb bs => ka = kb ∧ beqJson va vb ∧ beqJsonMembers as bs
  | _, _ => false
end

/-- Structural equality test on optional JSON values. -/
def beqOptJson : Option Json → Option Json → Bool
  | none, none => true
  | some a, some b => beqJson a b
  | _, _ => false

/-! ## Producer-facing API (`qtaskdist_api`) -/

/-- The stream-routing table of `queue_manager.py`. -/
def STREAMS : List (String × String) :=
  [("simulate", "stream:simulate"),
   ("c_qir_convert", "stream:c_qir"),
   ("backend_run", "stream:backend")]

/-- Look up the stream partition configured for a task type. -/
def lookupStream (task_type : String) : Option String :=
  (STREAMS.find? (fun p => p.1 = task_type)).map (fun p => p.2)

/-- An envelope appended to a stream; the payload field holds the
`json.dumps` serialization of the payload dictionary. -/
structure Envelope where
  task_id : String
  task_type : String
  payload : List Char
  created_at : String

/-- The state of the Redis streams: appended entries
`(stream name, message id, envelope)` plus the next message id. -/
structure StreamState where
  entries : List (String × Nat × Envelope)
  nextId : Nat

/-- Model of `xadd`: append the envelope to the named stream and return the
assigned message id. -/
def xadd (st : StreamState) (name : String) (env : Envelope) :
    StreamState × Nat :=
  ({ entries := st.entries ++ [(name, st.nextId, env)], nextId := st.nextId + 1 },
   st.nextId)

/-- Model of `queue_manager.enqueue_task`: an unknown `task_type` raises
`ValueError` before anything is written; otherwise the envelope is appended
to the configured stream. The Python function has no `return` statement, so
its value is `None` — modelled by the `Option Nat` component being `none`
rather than the message id `xadd` assigned. -/
def enqueue_task (st : StreamState) (task_id task_type : String)
    (payload : Json) (nowIso : String) :
    Except String (StreamState × Option Nat) :=
  match lookupStream task_type with
  | none => .error (String.append "Unknown task_type " task_type)
  | some name =>
    let r := xadd st name ⟨task_id, task_type, dumpVal payload, nowIso⟩
    .ok (r.1, none)

/-- A validated `POST /tasks` request body (`schemas.TaskCreate`). -/
structure TaskCreate where
  task_type : String
  status : String := "pending"
  payload : Json
  result : Option Json := none
  error : Option String := none
  retry_count : Int := 0
  max_retries : Int := 3
  scheduled_for : Option Nat := none
  meta_data : Json := .obj .nil

/-- Model of `crud_task.create_task`: construct the row, add it to the
session and commit. `newId` is the UUID the database assigns and `now` the
insert instant. -/
def crud_create_task (db : List TaskRec) (req : TaskCreate) (newId : String)
    (now : Nat) : List TaskRec × TaskRec :=
  let t : TaskRec :=
    { task_id := newId, task_type := req.task_type, status := req.status,
      payload := req.payload, result := req.result, error := req.error,
      retry_count := req.retry_count, max_retries := req.max_retries,
      scheduled_for := req.scheduled_for, meta_data := req.meta_data,
      created_at := now, updated_at := now }
  (db ++ [t], t)

/-- Model of the `POST /tasks` route of `main.py`: the task row is created
and committed first, then `enqueue_task` is called; an enqueue failure
propagates out of the handler (an error response) after the row was already
committed. -/
def create_task_route (db : List TaskRec) (st : StreamState)
    (req : TaskCreate) (newId : String) (now : Nat) (nowIso : String) :
    List TaskRec × StreamState × Except String TaskRec :=
  let r1 := crud_create_task db req newId now
  match enqueue_task st r1.2.task_id r1.2.task_type r1.2.payload nowIso with
  | .ok r2 => (r1.1, r2.1, .ok r1.2)
  | .error e => (r1.1, st, .error e)

/-- A `PATCH /tasks` body (`schemas.TaskUpdate`) after
`model_dump(exclude_unset=True)`: an outer `none` means the field was not
present in the request. `result` and `error` map to nullable columns, so an
explicitly supplied `null` (inner `none`) is representable; `status`,
`retry_count` and `meta_data` map to non-nullable columns, for which an
explicit `null` would make the commit fail, and are modelled as set-to-value
only. -/
structure TaskUpdate where
  status : Option String := none
  result : Option (Option Json) := none
  error : Option (Option String) := none
  retry_count : Option Int := none
  meta_data : Option Json := none

/-- Apply the `setattr` loop of `crud_task.update_task`: exactly the fields
present in the request are assigned. -/
def applyUpd (t : TaskRec) (u : TaskUpdate) : TaskRec :=
  { t with
    status := u.status.getD t.status,
    result := u.result.getD t.result,
    error := u.error.getD t.error,
    retry_count := u.retry_count.getD t.retry_count,
    meta_data := u.meta_data.getD t.meta_data }

/-- Whether the assigned row equals the loaded row on every updatable
column (the flush-time net-change comparison, using Python `==`). -/
def sameRow (a b : TaskRec) : Bool :=
  a.status = b.status ∧ beqOptJson a.result b.result ∧ a.error = b.error ∧
    a.retry_count = b.retry_count ∧ beqJson a.meta_data b.meta_data

/-- Model of `crud_task.update_task`: look the row up (`none` models the
`not found` return), assign the explicitly set fields, and commit. The
flush emits an `UPDATE` only when some column has a net change, and that
`UPDATE` triggers the `updated_at` column's `onupdate=func.now()`. -/
def update_task (db : List TaskRec) (tid : String) (u : TaskUpdate)
    (now : Nat) : Option (List TaskRec × TaskRec) :=
  match db.find? (fun t => t.task_id = tid) with
  | none => none
  | some t =>
    let t1 := applyUpd t u
    let t2 := if sameRow t1 t then t1 else { t1 with updated_at := now }
    some (db.map (fun r => if r.task_id = tid then t2 else r), t2)

/-! ## Concrete fixtures for scenarios -/

/-- A well-formed UUID string. -/
def uuid1 : String := "00000000-0000-0000-0000-000000000001"

/-- A pending task row. -/
def task1 : TaskRec :=
  { task_id := uuid1, task_type := "simulate", status := "pending",
    payload := .obj .nil, result := none, error := none, retry_count := 0,
    max_retries := 3, scheduled_for := none, meta_data := .obj .nil,
    created_at := 1, updated_at := 1 }

/-- A task row carrying a diagnostic from an earlier failure. -/
def task2 : TaskRec := { task1 with error := some "old" }

/-- A well-formed delivered message for `task1` (payload `{}`). -/
def msg1 : StreamMessage :=
  ⟨some uuid1, some "simulate", some [lbrCh, rbrCh], some "t0"⟩

/-- A delivered message whose payload is malformed JSON (a lone brace). -/
def badMsg : StreamMessage :=
  ⟨some uuid1, some "simulate", some [lbrCh], some "t0"⟩

/-- A processor function that succeeds with an empty-object result. -/
def procOk : ParsedTask → Except String Json := fun _ => .ok (.obj .nil)

/-- A processor function that raises `boom`. -/
def procBoom : ParsedTask → Except String Json := fun _ => .error "boom"

/-- A creation request with a task type that has no configured stream. -/
def req1 : TaskCreate := { task_type := "weird", payload := .obj .nil }

/-- A partial update setting only `status`. -/
def upd1 : TaskUpdate := { status := some "done" }

/-- A partial update setting only `error`. -/
def upd2 : TaskUpdate := { error := some (some "x") }

/-- A payload whose serialization contains a single quote. -/
def jsonApos : Json := .obj (.cons ['m', 's', 'g'] (.str ['i', 't', sqCh, 's']) .nil)

/-- The row `task1` after a partial update setting only `error`. -/
def task1u : TaskRec := { task1 with error := some "x", updated_at := 99 }

/-! ## Helper lemmas -/

theorem list_map_eq_self {α : Type} {l : List α} {f : α → α}
    (h : ∀ a ∈ l, f a = a) : l.map f = l := by
  induction l with
  | nil => rfl
  | cons x xs ih =>
    simp only [List.map_cons]
    rw [h x (by simp), ih (fun a ha => h a (List.mem_cons_of_mem _ ha))]

/-- The event trace of one `update_task_status` call, by case on whether
`UUID(task_id)` succeeds. -/
theorem update_task_status_events (store : List TaskRec)
    (task_id : Option String) (status : String) (result : Option Json)
    (error : Option String) (now : Nat) :
    (update_task_status store task_id status result error now).2 =
      if uuidArgOk task_id then
        [.statusUpdateCall task_id status,
         .dbUpdate (task_id.getD "") status result error
           (store.any (fun t => t.task_id = task_id.getD "")),
         .logUpdated task_id status]
      else [.statusUpdateCall task_id status, .logUpdateError task_id] := by
  unfold update_task_status
  split <;> rfl

/-- `update_task_status` never acknowledges anything. -/
theorem update_task_status_no_ack (store : List TaskRec)
    (task_id : Option String) (status : String) (result : Option Json)
    (error : Option String) (now : Nat) :
    ((update_task_status store task_id status result error now).2).countP
      Event.isAck = 0 := by
  rw [update_task_status_events]
  split <;> rfl

/-- `update_task_status` never logs a warning. -/
theorem update_task_status_no_warning (store : List TaskRec)
    (task_id : Option String) (status : String) (result : Option Json)
    (error : Option String) (now : Nat) :
    ((update_task_status store task_id status result error now).2).countP
      Event.isWarning = 0 := by
  rw [update_task_status_events]
  split <;> rfl

/-! ## C8 — the consume loop survives everything but cancellation -/

/-- C8: the consume loop exits exactly when a poll outcome is a
cancellation; a non-cancellation error in the loop body is logged, followed
by a fixed five-second back-off sleep, after which polling resumes with the
store untouched; a cancellation stops the loop immediately. -/
theorem c8_only_cancellation_stops_loop :
    (∀ (store : List TaskRec) (proc : ParsedTask → Except String Json)
        (group : String) (now : Nat) (polls : List PollResult),
      (start_consuming store proc group now polls).2.2 =
        polls.any PollResult.isCancelled) ∧
    (∀ (store : List TaskRec) (proc : ParsedTask → Except String Json)
        (group : String) (now : Nat) (e : String) (rest : List PollResult),
      start_consuming store proc group now (.pollError e :: rest) =
        ((start_consuming store proc group now rest).1,
         .logConsumerError e :: .sleep 5 ::
           (start_consuming store proc group now rest).2.1,
         (start_consuming store proc group now rest).2.2)) ∧
    (∀ (store : List TaskRec) (proc : ParsedTask → Except String Json)
        (group : String) (now : Nat) (rest : List PollResult),
      start_consuming store proc group now (.cancelled :: rest) =
        (store, [.logCancelled], true)) := by
  refine ⟨?_, ?_, ?_⟩
  · intro store proc group now polls
    induction polls generalizing store with
    | nil => rfl
    | cons pr rest ih =>
      cases pr with
      | cancelled => simp [start_consuming, consume_step, PollResult.isCancelled]
      | pollError e =>
        simp [start_consuming, consume_step, PollResult.isCancelled, ih]
      | messages b =>
        simp [start_consuming, consume_step, PollResult.isCancelled, ih]
  · intro store proc group now e rest
    rfl
  · intro store proc group now rest
    rfl

/-! ## C5 — enqueue routes by task type but returns no message id -/

/-- C5 counterexample: enqueuing with a known task type appends the
envelope (the stream assigns message id `0`), yet the operation's returned
value is `None`, not the assigned message id. -/
theorem c5_counterexample :
    enqueue_task ⟨[], 0⟩ "t1" "simulate" (.obj .nil) "t0" =
      .ok ({ entries := [("stream:simulate", 0,
                          ⟨"t1", "simulate", [lbrCh, rbrCh], "t0"⟩)],
             nextId := 1 }, none) ∧
    (none : Option Nat) ≠ some 0 := by
  exact ⟨rfl, by simp⟩

/-- C5 (amended): for a known `task_type`, `enqueue_task` appends the
envelope to the stream partition keyed by that type but returns `None`
(the Python function has no return statement), not the message id the
stream assigned; for an unknown `task_type` it fails fast with
`ValueError: Unknown task_type ...`. -/
theorem c5_enqueue_returns_no_message_id :
    (∀ (st : StreamState) (task_id task_type : String) (payload : Json)
        (nowIso name : String), lookupStream task_type = some name →
      enqueue_task st task_id task_type payload nowIso =
        .ok ({ entries := st.entries ++
                 [(name, st.nextId, ⟨task_id, task_type, dumpVal payload, nowIso⟩)],
               nextId := st.nextId + 1 }, none)) ∧
    (∀ (st : StreamState) (task_id task_type : String) (payload : Json)
        (nowIso : String), lookupStream task_type = none →
      enqueue_task st task_id task_type payload nowIso =
        .error (String.append "Unknown task_type " task_type)) := by
  constructor
  · intro st tid ty p iso name h
    unfold enqueue_task
    rw [h]
    rfl
  · intro st tid ty p iso h
    unfold enqueue_task
    rw [h]

/-- C5 witness: the amended statement applied to a concrete known type and
a concrete unknown type. -/
theorem c5_witness :
    enqueue_task ⟨[], 0⟩ "t1" "simulate" (.obj .nil) "t0" =
      .ok ({ entries := [("stream:simulate", 0,
                          ⟨"t1", "simulate", dumpVal (.obj .nil), "t0"⟩)],
             nextId := 1 }, none) ∧
    enqueue_task ⟨[], 0⟩ "t1" "weird" (.obj .nil) "t0" =
      .error (String.append "Unknown task_type " "weird") :=
  ⟨c5_enqueue_returns_no_message_id.1 ⟨[], 0⟩ "t1" "simulate" (.obj .nil)
      "t0" "stream:simulate" rfl,
   c5_enqueue_returns_no_message_id.2 ⟨[], 0⟩ "t1" "weird" (.obj .nil)
      "t0" rfl⟩

/-! ## C3 — a routing error leaves the stream alone but the task is stored -/

/-- C3 counterexample: creating a task with an unknown type surfaces the
routing error, yet the task store has gained the new row (the insert
committed before the enqueue raised); the claim that the store is unchanged
fails. -/
theorem c3_counterexample :
    ((create_task_route [] ⟨[], 0⟩ req1 uuid1 5 "t0").1.map
        (fun t => t.task_id) = [uuid1]) ∧
    ((create_task_route [] ⟨[], 0⟩ req1 uuid1 5 "t0").2.2 =
      .error (String.append "Unknown task_type " "weird")) ∧
    ((create_task_route [] ⟨[], 0⟩ req1 uuid1 5 "t0").2.1 = ⟨[], 0⟩) ∧
    [uuid1] ≠ ([] : List String) := by
  exact ⟨rfl, rfl, rfl, by simp⟩

/-- C3 (amended): a task-creation request whose `task_type` has no
configured stream surfaces the error synchronously and appends nothing to
any stream, but the task row IS stored: the insert commits before the
routing error is raised. -/
theorem c3_routing_error_after_insert (db : List TaskRec) (st : StreamState)
    (req : TaskCreate) (newId : String) (now : Nat) (nowIso : String)
    (h : lookupStream req.task_type = none) :
    create_task_route db st req newId now nowIso =
      (db ++ [(crud_create_task db req newId now).2], st,
       .error (String.append "Unknown task_type " req.task_type)) := by
  unfold create_task_route enqueue_task crud_create_task
  dsimp only
  rw [h]

/-- C3 witness: the amended statement at a concrete unroutable request. -/
theorem c3_witness :
    create_task_route [] ⟨[], 0⟩ req1 uuid1 5 "t0" =
      ([] ++ [(crud_create_task [] req1 uuid1 5).2], ⟨[], 0⟩,
       .error (String.append "Unknown task_type " req1.task_type)) :=
  c3_routing_error_after_insert [] ⟨[], 0⟩ req1 uuid1 5 "t0" rfl

/-- The `statusUpdateCall` event is always the first event of an
`update_task_status` call. -/
theorem statusUpdateCall_mem (store : List TaskRec) (task_id : Option String)
    (status : String) (result : Option Json) (error : Option String)
    (now : Nat) :
    Event.statusUpdateCall task_id status ∈
      (update_task_status store task_id status result error now).2 := by
  rw [update_task_status_events]
  split <;> simp

/-- Composition of the `processing` update with a terminal update: the
store after both is a single per-row rewrite of the original store. -/
theorem update_after_processing (store : List TaskRec) (tid : String)
    (st2 : String) (res2 : Option Json) (err2 : Option String) (now : Nat)
    (hu : uuidOk tid = true) :
    (update_task_status
        (update_task_status store (some tid) "processing" none none now).1
        (some tid) st2 res2 err2 now).1 =
      store.map (fun r =>
        if r.task_id = tid then
          (let t1 := { r with status := st2, updated_at := now }
           let t2 := match res2 with
             | some v => { t1 with result := some v }
             | none => t1
           match err2 with
             | some e0 => { t2 with error := some e0 }
             | none => t2)
        else r) := by
  unfold update_task_status
  simp only [uuidArgOk, hu, if_true, Option.getD_some, List.map_map]
  apply List.map_congr_left
  intro r _
  by_cases hr : r.task_id = tid
  · cases res2 <;> cases err2 <;> simp [hr]
  · simp [hr]

/-! ## C7 — a missing task id is tolerated silently, with no warning -/

/-- C7 counterexample: updating a task id that matches no row issues the
single update statement (matching nothing), leaves the store unchanged and
propagates no error — but logs the ordinary `Updated task ...` success line
rather than any warning; the trace contains no warning event. -/
theorem c7_counterexample :
    update_task_status [] (some uuid1) "processing" none none 7 =
      ([], [.statusUpdateCall (some uuid1) "processing",
            .dbUpdate uuid1 "processing" none none false,
            .logUpdated (some uuid1) "processing"]) ∧
    ((update_task_status [] (some uuid1) "processing" none none 7).2.countP
      Event.isWarning = 0) := by
  exact ⟨rfl, rfl⟩

/-- C7 (amended): the lifecycle manager's status update is a single update
statement against the store; a valid `task_id` with no matching record is
tolerated: the store is unchanged and no error propagates (the call returns
normally), but no warning is logged — the code prints its normal success
line even when nothing matched. -/
theorem c7_missing_task_tolerated (store : List TaskRec) (tid : String)
    (status : String) (result : Option Json) (error : Option String)
    (now : Nat) (hu : uuidOk tid = true)
    (hmiss : ∀ t ∈ store, ¬ t.task_id = tid) :
    update_task_status store (some tid) status result error now =
      (store,
       [.statusUpdateCall (some tid) status,
        .dbUpdate tid status result error false,
        .logUpdated (some tid) status]) ∧
    ((update_task_status store (some tid) status result error now).2.countP
      Event.isWarning = 0) := by
  refine ⟨?_, update_task_status_no_warning _ _ _ _ _ _⟩
  unfold update_task_status
  simp only [uuidArgOk, hu, if_true, Option.getD_some]
  have h1 : store.map (fun t =>
      if t.task_id = tid then
        (let t1 := { t with status := status, updated_at := now }
         let t2 := match result with
           | some r => { t1 with result := some r }
           | none => t1
         match error with
           | some e => { t2 with error := some e }
           | none => t2)
      else t) = store := by
    apply list_map_eq_self
    intro r hr
    simp [hmiss r hr]
  have h2 : store.any (fun t => t.task_id = tid) = false := by
    rw [List.any_eq_false]
    intro x hx
    simp [hmiss x hx]
  rw [h1, h2]

/-- C7 witness: the amended statement at a valid UUID absent from a
singleton store. -/
theorem c7_witness :
    update_task_status [task1]
        (some "00000000-0000-0000-0000-000000000002") "processing" none none 7 =
      ([task1],
       [.statusUpdateCall (some "00000000-0000-0000-0000-000000000002") "processing",
        .dbUpdate "00000000-0000-0000-0000-000000000002" "processing" none none false,
        .logUpdated (some "00000000-0000-0000-0000-000000000002") "processing"]) ∧
    ((update_task_status [task1]
        (some "00000000-0000-0000-0000-000000000002") "processing" none none 7).2.countP
      Event.isWarning = 0) :=
  c7_missing_task_tolerated [task1] "00000000-0000-0000-0000-000000000002"
    "processing" none none 7 (by decide)
    (by intro t ht; simp only [List.mem_singleton] at ht; subst ht; decide)

/-! ## C2 — a decode failure is logged and isolated, but never acknowledged -/

/-- C2 counterexample: a malformed envelope is logged and triggers no
status update, but the message is NOT acknowledged — the trace contains
zero acknowledgments, refuting the claim's `acknowledges the message`
part. -/
theorem c2_counterexample :
    process_message [task1] "stream:simulate" "1-0" badMsg procOk "grp" 7 =
      ([task1], [.logMessageError "1-0" "Failed to parse task"]) ∧
    ((process_message [task1] "stream:simulate" "1-0" badMsg procOk "grp"
        7).2.countP Event.isAck = 0) ∧
    (0 : Nat) ≠ 1 := by
  exact ⟨rfl, rfl, by simp⟩

/-- C2 (amended): a message whose envelope fails to decode is logged, no
task-status update is performed and the store is untouched, the message is
NOT acknowledged (it stays pending), and subsequent messages in the same
batch are still processed from the unchanged store. -/
theorem c2_decode_failure_not_acked (store : List TaskRec)
    (stream mid group : String) (m : StreamMessage)
    (proc : ParsedTask → Except String Json) (now : Nat) (e : String)
    (hp : parse_task m = .error e) :
    process_message store stream mid m proc group now =
      (store, [.logMessageError mid e]) ∧
    (∀ rest : MsgBatch,
      process_messages store stream ((mid, m) :: rest) proc group now =
        ((process_messages store stream rest proc group now).1,
         .logMessageError mid e ::
           (process_messages store stream rest proc group now).2)) := by
  have h1 : process_message store stream mid m proc group now =
      (store, [.logMessageError mid e]) := by
    unfold process_message
    rw [hp]
  refine ⟨h1, ?_⟩
  intro rest
  simp only [process_messages]
  rw [h1]
  rfl

/-- C2 witness: the amended statement at a concrete malformed message,
with a well-formed message following it in the batch. -/
theorem c2_witness :
    process_message [task1] "stream:simulate" "1-0" badMsg procOk "grp" 7 =
      ([task1], [.logMessageError "1-0" "Failed to parse task"]) ∧
    process_messages [task1] "stream:simulate"
        [("1-0", badMsg), ("2-0", msg1)] procOk "grp" 7 =
      ((process_messages [task1] "stream:simulate" [("2-0", msg1)] procOk
          "grp" 7).1,
       .logMessageError "1-0" "Failed to parse task" ::
         (process_messages [task1] "stream:simulate" [("2-0", msg1)] procOk
           "grp" 7).2) :=
  ⟨(c2_decode_failure_not_acked [task1] "stream:simulate" "1-0" "grp" badMsg
      procOk 7 "Failed to parse task" rfl).1,
   (c2_decode_failure_not_acked [task1] "stream:simulate" "1-0" "grp" badMsg
      procOk 7 "Failed to parse task" rfl).2 [("2-0", msg1)]⟩

/-! ## C1 — an execution failure records `failed` but never acknowledges -/

/-- C1 counterexample: for a delivered message whose execution capability
raises `boom`, the task is recorded `failed` with error `boom`, but the
trace contains ZERO acknowledgments — the message is never acknowledged,
refuting the claim that it is acknowledged exactly once. -/
theorem c1_counterexample :
    ((process_message [task1] "stream:simulate" "1-0" msg1 procBoom "grp"
        7).1.map (fun r => (r.status, r.error)) =
      [("failed", some "boom")]) ∧
    ((process_message [task1] "stream:simulate" "1-0" msg1 procBoom "grp"
        7).2.countP Event.isAck = 0) ∧
    (0 : Nat) ≠ 1 := by
  exact ⟨rfl, rfl, by simp⟩

/-- C1 (amended): for every delivered message that decodes successfully
and whose execution capability raises a failure, the dispatch loop records
status `failed` with the stringified failure as the `error`, but does NOT
acknowledge the message — the trace contains no acknowledgment at all
(only the success path acknowledges), so the message stays pending. -/
theorem c1_failed_without_ack (store : List TaskRec)
    (stream mid group : String) (m : StreamMessage)
    (proc : ParsedTask → Except String Json) (now : Nat) (t : ParsedTask)
    (e : String) (hp : parse_task m = .ok t) (he : proc t = .error e) :
    ((process_message store stream mid m proc group now).2.countP
      Event.isAck = 0) ∧
    (Event.statusUpdateCall t.task_id "failed" ∈
      (process_message store stream mid m proc group now).2) ∧
    (∀ tid, t.task_id = some tid → uuidOk tid = true →
      (process_message store stream mid m proc group now).1 =
        store.map (fun r =>
          if r.task_id = tid then
            { r with status := "failed", error := some e, updated_at := now }
          else r)) := by
  have hev : (process_message store stream mid m proc group now).2 =
      [Event.logProcessing t.task_id stream] ++
        (update_task_status store t.task_id "processing" none none now).2 ++
        [Event.execute, Event.logMessageError mid e] ++
        (update_task_status
          (update_task_status store t.task_id "processing" none none now).1
          t.task_id "failed" none (some e) now).2 := by
    unfold process_message
    rw [hp]
    dsimp only
    rw [he]
  have hst : (process_message store stream mid m proc group now).1 =
      (update_task_status
        (update_task_status store t.task_id "processing" none none now).1
        t.task_id "failed" none (some e) now).1 := by
    unfold process_message
    rw [hp]
    dsimp only
    rw [he]
  refine ⟨?_, ?_, ?_⟩
  · rw [hev]
    simp only [List.countP_append, update_task_status_no_ack]
    rfl
  · rw [hev]
    simp only [List.mem_append]
    exact Or.inr (statusUpdateCall_mem _ _ _ _ _ _)
  · intro tid hid hu
    rw [hst, hid]
    exact update_after_processing store tid "failed" none (some e) now hu
/-- C1 witness: the amended statement at the concrete failing scenario. -/
theorem c1_witness :
    ((process_message [task1] "stream:simulate" "1-0" msg1 procBoom "grp"
        7).2.countP Event.isAck = 0) ∧
    ((process_message [task1] "stream:simulate" "1-0" msg1 procBoom "grp"
        7).1 =
      [task1].map (fun r =>
        if r.task_id = uuid1 then
          { r with status := "failed", error := some "boom", updated_at := 7 }
        else r)) := by
  have h := c1_failed_without_ack [task1] "stream:simulate" "1-0" "grp" msg1
    procBoom 7 ⟨some uuid1, some "simulate", some (.obj .nil), some "t0"⟩
    "boom" rfl rfl
  exact ⟨h.1, h.2.2 uuid1 rfl (by decide)⟩

/-! ## C4 — completion persists the result but does not clear `error` -/

/-- C4 counterexample: a task carrying a stale diagnostic (`error = old`)
completes successfully; the stored row has `status = completed` and the new
result, but `error` still holds `old` — it is not cleared, refuting the
claim. -/
theorem c4_counterexample :
    ((process_message [task2] "stream:simulate" "1-0" msg1 procOk "grp"
        7).1.map (fun r => (r.status, r.result, r.error)) =
      [("completed", some (Json.obj .nil), some "old")]) ∧
    some "old" ≠ (none : Option String) := by
  exact ⟨rfl, by simp⟩

/-- C4 (amended): a successful execution persists the execution's result
and sets status `completed` (refreshing `updated_at`), while the task's
`error` field is left unchanged — the update only writes the keys that are
not `None`, so a pre-existing error string survives completion. -/
theorem c4_completed_keeps_error (store : List TaskRec)
    (stream mid group : String) (m : StreamMessage)
    (proc : ParsedTask → Except String Json) (now : Nat) (t : ParsedTask)
    (res : Json) (tid : String) (hp : parse_task m = .ok t)
    (he : proc t = .ok res) (hid : t.task_id = some tid)
    (hu : uuidOk tid = true) :
    (process_message store stream mid m proc group now).1 =
      store.map (fun r =>
        if r.task_id = tid then
          { r with status := "completed", result := some res,
                   updated_at := now }
        else r) := by
  have hst : (process_message store stream mid m proc group now).1 =
      (update_task_status
        (update_task_status store t.task_id "processing" none none now).1
        t.task_id "completed" (some res) none now).1 := by
    unfold process_message
    rw [hp]
    dsimp only
    rw [he]
  rw [hst, hid]
  exact update_after_processing store tid "completed" (some res) none now hu

/-- C4 witness: the amended statement at the concrete completion scenario
over a store whose task carries a stale error. -/
theorem c4_witness :
    (process_message [task2] "stream:simulate" "1-0" msg1 procOk "grp"
        7).1 =
      [task2].map (fun r =>
        if r.task_id = uuid1 then
          { r with status := "completed", result := some (Json.obj .nil),
                   updated_at := 7 }
        else r) :=
  c4_completed_keeps_error [task2] "stream:simulate" "1-0" "grp" msg1 procOk
    7 ⟨some uuid1, some "simulate", some (.obj .nil), some "t0"⟩
    (Json.obj .nil) uuid1 rfl rfl rfl (by decide)

/-! ## C6 — the `processing` update precedes the execution capability -/

/-- C6: for every delivered message that decodes successfully, the
status-update call transitioning the task to `processing` completes before
the processor function is invoked: the trace splits around the `execute`
event with the `processing` update call in the prefix, and when the task id
is a valid UUID the committed `processing` update statement is in the
prefix as well. -/
theorem c6_processing_before_execute (store : List TaskRec)
    (stream mid group : String) (m : StreamMessage)
    (proc : ParsedTask → Except String Json) (now : Nat) (t : ParsedTask)
    (hp : parse_task m = .ok t) :
    ∃ pre post,
      (process_message store stream mid m proc group now).2 =
        pre ++ Event.execute :: post ∧
      Event.statusUpdateCall t.task_id "processing" ∈ pre ∧
      (uuidArgOk t.task_id = true →
        Event.dbUpdate (t.task_id.getD "") "processing" none none
          (store.any (fun r => r.task_id = t.task_id.getD "")) ∈ pre) := by
  refine ⟨Event.logProcessing t.task_id stream ::
    (update_task_status store t.task_id "processing" none none now).2,
    ?_, ?_, ?_, ?_⟩
  · exact (match hproc : proc t with
      | .ok res =>
        (update_task_status
          (update_task_status store t.task_id "processing" none none now).1
          t.task_id "completed" (some res) none now).2 ++
          [Event.ack stream group mid, Event.logCompleted t.task_id]
      | .error e =>
        Event.logMessageError mid e ::
          (update_task_status
            (update_task_status store t.task_id "processing" none none
              now).1
            t.task_id "failed" none (some e) now).2)
  · unfold process_message
    rw [hp]
    dsimp only
    cases hproc : proc t with
    | ok res => simp [List.append_assoc]
    | error e => simp [List.append_assoc]
  · simp only [List.mem_cons]
    exact Or.inr (statusUpdateCall_mem _ _ _ _ _ _)
  · intro hok
    simp only [List.mem_cons, update_task_status_events, hok, if_true]
    simp

/-- C6 witness: the statement at a concrete well-formed message. -/
theorem c6_witness :
    ∃ pre post,
      (process_message [task1] "stream:simulate" "1-0" msg1 procOk "grp"
          7).2 = pre ++ Event.execute :: post ∧
      Event.statusUpdateCall (some uuid1) "processing" ∈ pre ∧
      (uuidArgOk (some uuid1) = true →
        Event.dbUpdate uuid1 "processing" none none
          ([task1].any (fun r => r.task_id = uuid1)) ∈ pre) :=
  c6_processing_before_execute [task1] "stream:simulate" "1-0" "grp" msg1
    procOk 7 ⟨some uuid1, some "simulate", some (.obj .nil), some "t0"⟩ rfl

/-! ## C10 — partial updates: unset fields survive, except `updated_at` -/

/-- C10 counterexample: a partial update setting only `status` also
changes `updated_at` (the column's `onupdate` fires on the commit), so not
every field absent from the request keeps its prior value. -/
theorem c10_counterexample :
    ((update_task [task1] uuid1 upd1 99).map
      (fun r => (r.2.status, r.2.updated_at)) = some ("done", 99)) ∧
    task1.updated_at = 1 ∧ (99 : Nat) ≠ 1 := by
  exact ⟨rfl, rfl, by simp⟩

/-- C10 (amended): a partial update writes exactly the fields present in
the request; every other field — `status`, `result`, `error`,
`retry_count`, `meta_data` when unset, and always `payload`, `task_id`,
`task_type`, `created_at`, `scheduled_for`, `max_retries` — keeps its prior
value, with the sole exception of `updated_at`, which is refreshed by the
column's `onupdate` whenever the update gives some column a net change;
rows with a different id are untouched. -/
theorem c10_partial_update_frame (db : List TaskRec) (tid : String)
    (u : TaskUpdate) (now : Nat) (db2 : List TaskRec) (t2 : TaskRec)
    (h : update_task db tid u now = some (db2, t2)) :
    ∃ t, db.find? (fun r => r.task_id = tid) = some t ∧
      (u.status = none → t2.status = t.status) ∧
      (u.result = none → t2.result = t.result) ∧
      (u.error = none → t2.error = t.error) ∧
      (u.retry_count = none → t2.retry_count = t.retry_count) ∧
      (u.meta_data = none → t2.meta_data = t.meta_data) ∧
      t2.payload = t.payload ∧ t2.task_id = t.task_id ∧
      t2.task_type = t.task_type ∧ t2.created_at = t.created_at ∧
      t2.scheduled_for = t.scheduled_for ∧ t2.max_retries = t.max_retries ∧
      db2 = db.map (fun r => if r.task_id = tid then t2 else r) := by
  unfold update_task at h
  cases hf : db.find? (fun r => r.task_id = tid) with
  | none =>
    rw [hf] at h
    simp at h
  | some t =>
    rw [hf] at h
    dsimp only at h
    injection h with h
    have hdb := congrArg Prod.fst h
    have ht2 := congrArg Prod.snd h
    dsimp only at hdb ht2
    subst hdb
    subst ht2
    refine ⟨t, rfl, ?_, ?_, ?_, ?_, ?_, ?_, ?_, ?_, ?_, ?_, ?_, rfl⟩ <;>
      first
      | (intro h0
         split <;> first | rfl | simp [applyUpd, h0])
      | (split <;> rfl)

/-- C10 witness: the amended statement for a request setting only
`error` against a singleton store. -/
theorem c10_witness :
    ∃ t, [task1].find? (fun r => r.task_id = uuid1) = some t ∧
      (upd2.status = none → task1u.status = t.status) ∧
      (upd2.result = none → task1u.result = t.result) ∧
      (upd2.error = none → task1u.error = t.error) ∧
      (upd2.retry_count = none → task1u.retry_count = t.retry_count) ∧
      (upd2.meta_data = none → task1u.meta_data = t.meta_data) ∧
      task1u.payload = t.payload ∧ task1u.task_id = t.task_id ∧
      task1u.task_type = t.task_type ∧ task1u.created_at = t.created_at ∧
      task1u.scheduled_for = t.scheduled_for ∧
      task1u.max_retries = t.max_retries ∧
      [task1u] = [task1].map (fun r =>
        if r.task_id = uuid1 then task1u else r) :=
  c10_partial_update_frame [task1] uuid1 upd2 99 [task1u] task1u rfl

/-! ## C9 machinery: the printer-parser round trip -/

theorem skipWs_cons_not_ws {c : Char} (h : isWs c = false) (l : List Char) :
    skipWs (c :: l) = c :: l := by
  simp [skipWs, h]

theorem parseVal_congr (f : Nat) {a b : List Char} (h : skipWs a = skipWs b) :
    parseVal f a = parseVal f b := by
  cases f with
  | zero => rfl
  | succ f => simp only [parseVal, h]

theorem skipWs_space (l : List Char) : skipWs (spaceCh :: l) = skipWs l := by
  simp [skipWs, isWs]

theorem parseVal_ws (f : Nat) (l : List Char) :
    parseVal f (spaceCh :: l) = parseVal f l :=
  parseVal_congr f (skipWs_space l)

theorem parseItems_ws (f : Nat) (l : List Char) :
    parseItems f (spaceCh :: l) = parseItems f l := by
  cases f with
  | zero => rfl
  | succ f => simp only [parseItems, parseVal_ws]

theorem parseMembers_ws (f : Nat) (l : List Char) :
    parseMembers f (spaceCh :: l) = parseMembers f l := by
  cases f with
  | zero => rfl
  | succ f => simp only [parseMembers, skipWs_space]

/-- A digit character is not whitespace and is none of the structural
characters the value parser tests before its digit branch. -/
theorem isDigit_props {c : Char} (h : isDigit c = true) :
    isWs c = false ∧ c ≠ dqCh ∧ c ≠ lbrkCh ∧ c ≠ lbrCh ∧ c ≠ minusCh ∧
      c ≠ rbrkCh ∧ c ≠ rbrCh := by
  simp only [isDigit, decide_eq_true_eq] at h
  refine ⟨?_, ?_, ?_, ?_, ?_, ?_, ?_⟩
  · simp only [isWs, Bool.decide_or, Bool.or_eq_false_iff, decide_eq_false_iff_not]
    refine ⟨?_, ?_, ?_, ?_⟩ <;> (intro hc; subst hc; revert h; decide)
  all_goals (intro hc; subst hc; revert h; decide)

theorem digitChar_isDigit {n : Nat} (h : n < 10) :
    isDigit (digitChar n) = true := by
  interval_cases n <;> decide

theorem digitChar_toNat {n : Nat} (h : n < 10) :
    (digitChar n).toNat = 48 + n := by
  interval_cases n <;> decide

theorem readDigits_digits (ds : List Char) (hd : ∀ c ∈ ds, isDigit c = true) :
    ∀ (rest : List Char) (acc : Nat),
      readDigits (ds ++ rest) acc =
        readDigits rest (ds.foldl (fun a c => 10 * a + (c.toNat - 48)) acc) := by
  induction ds with
  | nil => intro rest acc; rfl
  | cons c cs ih =>
    intro rest acc
    have hc : isDigit c = true := hd c (by simp)
    simp only [List.cons_append, readDigits, hc, if_true, List.foldl_cons]
    exact ih (fun d hdm => hd d (by simp [hdm])) rest _

theorem readDigits_stop {rest : List Char} (h : headNotDigit rest)
    (acc : Nat) : readDigits rest acc = (acc, rest) := by
  cases rest with
  | nil => rfl
  | cons c cs =>
    simp only [headNotDigit] at h
    simp [readDigits, h]

theorem ntdAux_stable :
    ∀ (n f : Nat), n < f → natToDigitsAux f n = natToDigits n := by
  intro n
  induction n using Nat.strong_induction_on with
  | _ n ih =>
    intro f hf
    cases f with
    | zero => omega
    | succ f =>
      by_cases hn : n < 10
      · simp [natToDigits, natToDigitsAux, hn]
      · have hdiv : n / 10 < n := Nat.div_lt_self (by omega) (by omega)
        have h1 : natToDigitsAux f (n / 10) = natToDigits (n / 10) :=
          ih (n / 10) hdiv f (by omega)
        have h2 : natToDigitsAux n (n / 10) = natToDigits (n / 10) :=
          ih (n / 10) hdiv n (by omega)
        simp only [natToDigits, natToDigitsAux, hn, if_false]
        rw [h1, h2]

theorem natToDigits_lt {n : Nat} (h : n < 10) :
    natToDigits n = [digitChar n] := by
  simp [natToDigits, natToDigitsAux, h]

theorem natToDigits_ge {n : Nat} (h : 10 ≤ n) :
    natToDigits n = natToDigits (n / 10) ++ [digitChar (n % 10)] := by
  have hdiv : n / 10 < n := Nat.div_lt_self (by omega) (by omega)
  conv_lhs => rw [natToDigits]
  simp only [natToDigitsAux, Nat.not_lt.mpr h, if_false]
  rw [ntdAux_stable (n / 10) n hdiv]

theorem natToDigits_all_digits :
    ∀ (n : Nat), ∀ c ∈ natToDigits n, isDigit c = true := by
  intro n
  induction n using Nat.strong_induction_on with
  | _ n ih =>
    intro c hc
    by_cases hn : n < 10
    · rw [natToDigits_lt hn] at hc
      simp only [List.mem_singleton] at hc
      subst hc
      exact digitChar_isDigit hn
    · rw [natToDigits_ge (by omega)] at hc
      rcases List.mem_append.mp hc with h1 | h2
      · exact ih (n / 10) (Nat.div_lt_self (by omega) (by omega)) c h1
      · simp only [List.mem_singleton] at h2
        subst h2
        exact digitChar_isDigit (Nat.mod_lt _ (by omega))

theorem natToDigits_ne_nil (n : Nat) : natToDigits n ≠ [] := by
  by_cases hn : n < 10
  · rw [natToDigits_lt hn]; simp
  · rw [natToDigits_ge (by omega)]; simp

theorem natToDigits_foldl :
    ∀ (n : Nat), ∀ acc,
      (natToDigits n).foldl (fun a c => 10 * a + (c.toNat - 48)) acc =
        acc * 10 ^ (natToDigits n).length + n := by
  intro n
  induction n using Nat.strong_induction_on with
  | _ n ih =>
    intro acc
    by_cases hn : n < 10
    · rw [natToDigits_lt hn]
      simp only [List.foldl_cons, List.foldl_nil, List.length_singleton]
      rw [digitChar_toNat hn]
      omega
    · rw [natToDigits_ge (by omega)]
      rw [List.foldl_append]
      rw [ih (n / 10) (Nat.div_lt_self (by omega) (by omega)) acc]
      simp only [List.foldl_cons, List.foldl_nil, List.length_append,
        List.length_singleton]
      rw [digitChar_toNat (Nat.mod_lt _ (by omega))]
      have hdm := Nat.div_add_mod n 10
      set L := (natToDigits (n / 10)).length
      calc 10 * (acc * 10 ^ L + n / 10) + (48 + n % 10 - 48)
          = acc * 10 ^ L * 10 + (10 * (n / 10) + n % 10) := by omega
        _ = acc * 10 ^ (L + 1) + n := by rw [pow_succ, hdm]; ring

theorem readDigits_natToDigits (n : Nat) {rest : List Char}
    (h : headNotDigit rest) :
    readDigits (natToDigits n ++ rest) 0 = (n, rest) := by
  rw [readDigits_digits (natToDigits n) (natToDigits_all_digits n) rest 0]
  rw [natToDigits_foldl n 0]
  simp only [Nat.zero_mul, Nat.zero_add]
  exact readDigits_stop h n

theorem natToDigits_head (n : Nat) :
    ∃ c t, natToDigits n = c :: t ∧ isDigit c = true := by
  cases hc : natToDigits n with
  | nil => exact absurd hc (natToDigits_ne_nil n)
  | cons c t =>
    exact ⟨c, t, rfl, natToDigits_all_digits n c (by rw [hc]; simp)⟩

/-- Reduction of the string-body parser on a cons cell. -/
theorem parseStrBody_cons (c : Char) (cs : List Char) :
    parseStrBody (c :: cs) =
      if c = dqCh then some ([], cs)
      else if c = bslCh then
        match cs with
        | [] => none
        | d :: cs2 =>
          if d = dqCh ∨ d = bslCh ∨ d = slashCh then
            match parseStrBody cs2 with
            | some (s, r) => some (d :: s, r)
            | none => none
          else none
      else
        match parseStrBody cs with
        | some (s, r) => some (c :: s, r)
        | none => none := by
  cases cs with
  | nil =>
    by_cases h1 : c = dqCh <;> by_cases h2 : c = bslCh <;>
      simp [parseStrBody, h1, h2]
  | cons d cs2 => rfl

/-- The string-body parser undoes `escString` exactly, consuming the
closing quote. -/
theorem parseStrBody_esc :
    ∀ (s rest : List Char),
      parseStrBody (escString s ++ dqCh :: rest) = some (s, rest) := by
  intro s
  induction s with
  | nil =>
    intro rest
    show parseStrBody (dqCh :: rest) = some ([], rest)
    rw [parseStrBody_cons]
    simp
  | cons c cs ih =>
    intro rest
    by_cases hc : c = dqCh ∨ c = bslCh
    · simp only [escString, escChar, hc, if_true, List.cons_append,
        List.nil_append]
      rw [parseStrBody_cons]
      rw [if_neg (by decide : ¬ bslCh = dqCh), if_pos rfl]
      dsimp only
      rw [if_pos (by tauto : c = dqCh ∨ c = bslCh ∨ c = slashCh), ih rest]
    · push_neg at hc
      simp only [escString, escChar, hc.1, hc.2, or_self, if_false,
        List.cons_append, List.nil_append]
      rw [parseStrBody_cons, if_neg hc.1, if_neg hc.2, ih rest]

/-- Reduction of the value parser on an input starting with a double
quote. -/
theorem parseVal_dq (f : Nat) (z : List Char) :
    parseVal (f + 1) (dqCh :: z) =
      match parseStrBody z with
      | some (s, r) => some (.str s, r)
      | none => none := rfl

/-- Reduction of the value parser on an input starting with an opening
square bracket. -/
theorem parseVal_lbrk (f : Nat) (z : List Char) :
    parseVal (f + 1) (lbrkCh :: z) =
      match skipWs z with
      | [] => none
      | c2 :: cs2 =>
        if c2 = rbrkCh then some (.arr .nil, cs2)
        else
          match parseItems f (c2 :: cs2) with
          | some (vs, r) => some (.arr vs, r)
          | none => none := rfl

/-- Reduction of the value parser on an input starting with an opening
curly brace. -/
theorem parseVal_lbrc (f : Nat) (z : List Char) :
    parseVal (f + 1) (lbrCh :: z) =
      match skipWs z with
      | [] => none
      | c2 :: cs2 =>
        if c2 = rbrCh then some (.obj .nil, cs2)
        else
          match parseMembers f (c2 :: cs2) with
          | some (ms, r) => some (.obj ms, r)
          | none => none := rfl

/-- Reduction of the value parser on an input starting with a minus
sign. -/
theorem parseVal_minus (f : Nat) (z : List Char) :
    parseVal (f + 1) (minusCh :: z) =
      match z with
      | [] => none
      | d :: cs2 =>
        if isDigit d then
          match readDigits (d :: cs2) 0 with
          | (n, r) => some (.num (-(n : Int)), r)
        else none := rfl

/-- Reduction of the value parser on an input starting with a digit. -/
theorem parseVal_digit (f : Nat) {c : Char} (z : List Char)
    (h : isDigit c = true) :
    parseVal (f + 1) (c :: z) =
      match readDigits (c :: z) 0 with
      | (n, r) => some (.num (n : Int), r) := by
  obtain ⟨hws, hdq, hlbrk, hlbrc, hminus, _, _⟩ := isDigit_props h
  simp only [parseVal, skipWs_cons_not_ws hws, hdq, hlbrk, hlbrc, hminus,
    if_false, h, if_true]

/-- The first character of a serialized value is never whitespace and never
a closing square bracket. -/
theorem dump_head (p : Json) :
    ∃ c t, dumpVal p = c :: t ∧ isWs c = false ∧ c ≠ rbrkCh := by
  cases p with
  | null => exact ⟨'n', _, rfl, by decide, by decide⟩
  | bool b => cases b with
    | true => exact ⟨'t', _, rfl, by decide, by decide⟩
    | false => exact ⟨'f', _, rfl, by decide, by decide⟩
  | num n =>
    by_cases hn : n < 0
    · refine ⟨minusCh, natToDigits n.natAbs, ?_, by decide, by decide⟩
      simp [dumpVal, intToDigits, hn]
    · obtain ⟨c, t, hct, hdig⟩ := natToDigits_head n.toNat
      obtain ⟨hws, _, _, _, _, hrbrk, _⟩ := isDigit_props hdig
      refine ⟨c, t, ?_, hws, hrbrk⟩
      simp [dumpVal, intToDigits, hn, hct]
  | str s => exact ⟨dqCh, _, rfl, by decide, by decide⟩
  | arr xs => exact ⟨lbrkCh, _, rfl, by decide, by decide⟩
  | obj ms => exact ⟨lbrCh, _, rfl, by decide, by decide⟩

/-- Every JSON value has positive size. -/
theorem sizeV_pos (p : Json) : 1 ≤ sizeV p := by
  cases p <;> simp [sizeV]

theorem sizeI_pos {xs : JsonList} (h : xs ≠ .nil) : 1 ≤ sizeI xs := by
  cases xs with
  | nil => exact absurd rfl h
  | cons v vs => simp only [sizeI]; omega

theorem sizeM_pos {ms : JsonMembers} (h : ms ≠ .nil) : 1 ≤ sizeM ms := by
  cases ms with
  | nil => exact absurd rfl h
  | cons k v tl => simp only [sizeM]; omega

mutual
theorem sizeV_le_dump : ∀ p : Json, sizeV p ≤ (dumpVal p).length
  | .null => by simp [sizeV, dumpVal]; decide
  | .bool b => by cases b <;> (simp [sizeV, dumpVal]; decide)
  | .num n => by
      have h1 : (dumpVal (.num n)).length ≠ 0 := by
        simp only [dumpVal, intToDigits]
        split
        · simp
        · simp [natToDigits_ne_nil]
      simp only [sizeV]
      omega
  | .str s => by simp [sizeV, dumpVal]
  | .arr xs => by
      have h := sizeI_le_dump xs
      simp only [sizeV, dumpVal, List.length_cons, List.length_append,
        List.length_singleton]
      omega
  | .obj ms => by
      have h := sizeM_le_dump ms
      simp only [sizeV, dumpVal, List.length_cons, List.length_append,
        List.length_singleton]
      omega

theorem sizeI_le_dump : ∀ xs : JsonList, sizeI xs ≤ (dumpItems xs).length + 1
  | .nil => by simp [sizeI, dumpItems]
  | .cons x .nil => by
      have h := sizeV_le_dump x
      simp only [sizeI, sizeI.eq_1, dumpItems]
      omega
  | .cons x (.cons y rest) => by
      have h1 := sizeV_le_dump x
      have h2 := sizeI_le_dump (.cons y rest)
      simp only [sizeI] at h2 ⊢
      simp only [dumpItems, List.length_append, List.length_cons]
      omega

theorem sizeM_le_dump : ∀ ms : JsonMembers, sizeM ms ≤ (dumpMembers ms).length + 1
  | .nil => by simp [sizeM, dumpMembers]
  | .cons k v .nil => by
      have h := sizeV_le_dump v
      simp only [sizeM, sizeM.eq_1, dumpMembers, List.length_append,
        List.length_cons]
      omega
  | .cons k v (.cons k2 v2 rest) => by
      have h1 := sizeV_le_dump v
      have h2 := sizeM_le_dump (.cons k2 v2 rest)
      simp only [sizeM] at h2 ⊢
      simp only [dumpMembers, List.length_append, List.length_cons]
      omega
end

/-- Reduction of the item parser at successor fuel. -/
theorem parseItems_succ (f : Nat) (cs : List Char) :
    parseItems (f + 1) cs =
      match parseVal f cs with
      | none => none
      | some (v, r) =>
        match skipWs r with
        | [] => none
        | c :: r2 =>
          if c = commaCh then
            match parseItems f r2 with
            | some (vs, r3) => some (.cons v vs, r3)
            | none => none
          else if c = rbrkCh then some (.cons v .nil, r2)
          else none := rfl

/-- Reduction of the member parser at successor fuel. -/
theorem parseMembers_succ (f : Nat) (cs : List Char) :
    parseMembers (f + 1) cs =
      match skipWs cs with
      | [] => none
      | c :: cs1 =>
        if c = dqCh then
          match parseStrBody cs1 with
          | none => none
          | some (k, r) =>
            match skipWs r with
            | [] => none
            | c2 :: r2 =>
              if c2 = colonCh then
                match parseVal f r2 with
                | none => none
                | some (v, r3) =>
                  match skipWs r3 with
                  | [] => none
                  | c3 :: r4 =>
                    if c3 = commaCh then
                      match parseMembers f r4 with
                      | some (ms, r5) => some (.cons k v ms, r5)
                      | none => none
                    else if c3 = rbrCh then some (.cons k v .nil, r4)
                    else none
              else none
        else none := rfl

/-- The serialization of a non-empty item list starts with the head
character of its first element's serialization. -/
theorem dumpItems_cons_head (x : Json) (tail : JsonList) :
    ∃ c T, dumpItems (.cons x tail) = c :: T ∧ isWs c = false ∧
      c ≠ rbrkCh := by
  obtain ⟨c, t0, hct, hws, hbrk⟩ := dump_head x
  cases tail with
  | nil => exact ⟨c, t0, by simp [dumpItems, hct], hws, hbrk⟩
  | cons y ys =>
    exact ⟨c, t0 ++ commaCh :: spaceCh :: dumpItems (.cons y ys),
      by simp [dumpItems, hct], hws, hbrk⟩

/-- The serialization of a non-empty member list starts with a double
quote. -/
theorem dumpMembers_cons_head (k : List Char) (v : Json)
    (tail : JsonMembers) :
    ∃ T, dumpMembers (.cons k v tail) = dqCh :: T := by
  cases tail with
  | nil =>
    refine ⟨escString k ++ dqCh :: colonCh :: spaceCh :: dumpVal v, ?_⟩
    simp [dumpMembers]
  | cons k2 v2 ys =>
    refine ⟨escString k ++ dqCh :: colonCh :: spaceCh :: (dumpVal v ++
      commaCh :: spaceCh :: dumpMembers (.cons k2 v2 ys)), ?_⟩
    simp [dumpMembers]

/-- Joint printer-parser inversion at every sufficient fuel: a serialized
value (followed by a non-digit remainder), the serialized elements of a
non-empty array followed by its closing bracket, and the serialized
members of a non-empty object followed by its closing brace are parsed
back exactly. -/
theorem parse_dump_aux : ∀ f : Nat,
    (∀ (p : Json) (rest : List Char), sizeV p ≤ f → headNotDigit rest →
      parseVal f (dumpVal p ++ rest) = some (p, rest)) ∧
    (∀ (xs : JsonList) (rest : List Char), sizeI xs ≤ f → xs ≠ .nil →
      parseItems f (dumpItems xs ++ rbrkCh :: rest) = some (xs, rest)) ∧
    (∀ (ms : JsonMembers) (rest : List Char), sizeM ms ≤ f → ms ≠ .nil →
      parseMembers f (dumpMembers ms ++ rbrCh :: rest) = some (ms, rest)) := by
  intro f
  induction f using Nat.strong_induction_on with
  | _ f IH =>
    match f with
    | 0 =>
      refine ⟨?_, ?_, ?_⟩
      · intro p rest hs _
        exact absurd hs (by have := sizeV_pos p; omega)
      · intro xs rest hs hne
        exact absurd hs (by have := sizeI_pos hne; omega)
      · intro ms rest hs hne
        exact absurd hs (by have := sizeM_pos hne; omega)
    | f + 1 =>
      obtain ⟨ihV, ihI, ihM⟩ := IH f (by omega)
      refine ⟨?_, ?_, ?_⟩
      · intro p rest hs hrest
        cases p with
        | null => rfl
        | bool b => cases b <;> rfl
        | num n =>
          by_cases hn : n < 0
          · have hdump : dumpVal (.num n) = minusCh :: natToDigits n.natAbs := by
              simp [dumpVal, intToDigits, hn]
            obtain ⟨c, t, hct, hdig⟩ := natToDigits_head n.natAbs
            rw [hdump, List.cons_append, parseVal_minus, hct,
              List.cons_append]
            dsimp only
            rw [if_pos hdig, ← List.cons_append, ← hct,
              readDigits_natToDigits _ hrest]
            dsimp only
            have hval : -((n.natAbs : Int)) = n := by omega
            rw [hval]
          · have hdump : dumpVal (.num n) = natToDigits n.toNat := by
              simp [dumpVal, intToDigits, hn]
            obtain ⟨c, t, hct, hdig⟩ := natToDigits_head n.toNat
            rw [hdump, hct, List.cons_append, parseVal_digit f _ hdig,
              ← List.cons_append, ← hct, readDigits_natToDigits _ hrest]
            dsimp only
            have hval : ((n.toNat : Int)) = n := by omega
            rw [hval]
        | str s =>
          have hdump : dumpVal (.str s) ++ rest =
              dqCh :: (escString s ++ (dqCh :: rest)) := by
            simp [dumpVal]
          rw [hdump, parseVal_dq, parseStrBody_esc]
        | arr xs =>
          cases xs with
          | nil => rfl
          | cons x tail =>
            have hdump : dumpVal (.arr (.cons x tail)) ++ rest =
                lbrkCh :: (dumpItems (.cons x tail) ++ (rbrkCh :: rest)) := by
              simp [dumpVal]
            rw [hdump, parseVal_lbrk]
            obtain ⟨c, T, hct, hws, hbrk⟩ := dumpItems_cons_head x tail
            rw [hct, List.cons_append, skipWs_cons_not_ws hws]
            dsimp only
            rw [if_neg hbrk, ← List.cons_append, ← hct]
            have hsz : sizeI (JsonList.cons x tail) ≤ f := by
              simp only [sizeV] at hs
              omega
            rw [ihI (.cons x tail) rest hsz (by simp)]
        | obj ms =>
          cases ms with
          | nil => rfl
          | cons k v tail =>
            have hdump : dumpVal (.obj (.cons k v tail)) ++ rest =
                lbrCh :: (dumpMembers (.cons k v tail) ++ (rbrCh :: rest)) := by
              simp [dumpVal]
            rw [hdump, parseVal_lbrc]
            obtain ⟨T, hct⟩ := dumpMembers_cons_head k v tail
            rw [hct, List.cons_append,
              skipWs_cons_not_ws (show isWs dqCh = false by decide)]
            dsimp only
            rw [if_neg (show ¬ dqCh = rbrCh by decide), ← List.cons_append,
              ← hct]
            have hsz : sizeM (JsonMembers.cons k v tail) ≤ f := by
              simp only [sizeV] at hs
              omega
            rw [ihM (.cons k v tail) rest hsz (by simp)]
      · intro xs rest hs hne
        cases xs with
        | nil => exact absurd rfl hne
        | cons x tail =>
          cases tail with
          | nil =>
            have hin : dumpItems (.cons x .nil) ++ rbrkCh :: rest =
                dumpVal x ++ (rbrkCh :: rest) := by
              simp [dumpItems]
            have hszx : sizeV x ≤ f := by
              simp only [sizeI] at hs
              omega
            rw [hin, parseItems_succ,
              ihV x (rbrkCh :: rest) hszx
                (show isDigit rbrkCh = false by decide)]
            dsimp only
            rw [skipWs_cons_not_ws (show isWs rbrkCh = false by decide)]
            dsimp only
            rw [if_neg (show ¬ rbrkCh = commaCh by decide), if_pos rfl]
          | cons y ys =>
            have hin : dumpItems (.cons x (.cons y ys)) ++ rbrkCh :: rest =
                dumpVal x ++ (commaCh :: spaceCh ::
                  (dumpItems (.cons y ys) ++ rbrkCh :: rest)) := by
              simp [dumpItems]
            have hszx : sizeV x ≤ f := by
              have h1 := sizeI_pos (show JsonList.cons y ys ≠ .nil by simp)
              simp only [sizeI] at hs
              omega
            have hszt : sizeI (JsonList.cons y ys) ≤ f := by
              have h1 := sizeV_pos x
              simp only [sizeI] at hs ⊢
              omega
            rw [hin, parseItems_succ,
              ihV x (commaCh :: spaceCh ::
                  (dumpItems (.cons y ys) ++ rbrkCh :: rest)) hszx
                (show isDigit commaCh = false by decide)]
            dsimp only
            rw [skipWs_cons_not_ws (show isWs commaCh = false by decide)]
            dsimp only
            rw [if_pos rfl, parseItems_ws,
              ihI (.cons y ys) rest hszt (by simp)]
      · intro ms rest hs hne
        cases ms with
        | nil => exact absurd rfl hne
        | cons k v tail =>
          cases tail with
          | nil =>
            have hin : dumpMembers (.cons k v .nil) ++ rbrCh :: rest =
                dqCh :: (escString k ++ (dqCh :: (colonCh :: (spaceCh ::
                  (dumpVal v ++ (rbrCh :: rest)))))) := by
              simp [dumpMembers]
            have hszv : sizeV v ≤ f := by
              simp only [sizeM] at hs
              omega
            rw [hin, parseMembers_succ,
              skipWs_cons_not_ws (show isWs dqCh = false by decide)]
            dsimp only
            rw [if_pos rfl, parseStrBody_esc]
            dsimp only
            rw [skipWs_cons_not_ws (show isWs colonCh = false by decide)]
            dsimp only
            rw [if_pos rfl, parseVal_ws,
              ihV v (rbrCh :: rest) hszv
                (show isDigit rbrCh = false by decide)]
            dsimp only
            rw [skipWs_cons_not_ws (show isWs rbrCh = false by decide)]
            dsimp only
            rw [if_neg (show ¬ rbrCh = commaCh by decide), if_pos rfl]
          | cons k2 v2 ys =>
            have hin : dumpMembers (.cons k v (.cons k2 v2 ys)) ++
                  rbrCh :: rest =
                dqCh :: (escString k ++ (dqCh :: (colonCh :: (spaceCh ::
                  (dumpVal v ++ (commaCh :: spaceCh ::
                    (dumpMembers (.cons k2 v2 ys) ++ rbrCh :: rest))))))) := by
              simp [dumpMembers]
            have hszv : sizeV v ≤ f := by
              have h1 := sizeM_pos (show JsonMembers.cons k2 v2 ys ≠ .nil by simp)
              simp only [sizeM] at hs
              omega
            have hszt : sizeM (JsonMembers.cons k2 v2 ys) ≤ f := by
              have h1 := sizeV_pos v
              simp only [sizeM] at hs ⊢
              omega
            rw [hin, parseMembers_succ,
              skipWs_cons_not_ws (show isWs dqCh = false by decide)]
            dsimp only
            rw [if_pos rfl, parseStrBody_esc]
            dsimp only
            rw [skipWs_cons_not_ws (show isWs colonCh = false by decide)]
            dsimp only
            rw [if_pos rfl, parseVal_ws,
              ihV v (commaCh :: spaceCh ::
                  (dumpMembers (.cons k2 v2 ys) ++ rbrCh :: rest)) hszv
                (show isDigit commaCh = false by decide)]
            dsimp only
            rw [skipWs_cons_not_ws (show isWs commaCh = false by decide)]
            dsimp only
            rw [if_pos rfl, parseMembers_ws,
              ihM (.cons k2 v2 ys) rest hszt (by simp)]

/-- `json_loads` inverts `dumpVal` on every value of the model. -/
theorem json_roundtrip (p : Json) : json_loads (dumpVal p) = some p := by
  unfold json_loads
  have hsz : sizeV p ≤ (dumpVal p).length + 1 :=
    le_trans (sizeV_le_dump p) (by omega)
  have h := (parse_dump_aux ((dumpVal p).length + 1)).1 p [] hsz trivial
  rw [List.append_nil] at h
  rw [h]
  rfl

/-- A character-replace with an absent needle is the identity. -/
theorem pyReplace_id {s : List Char} {old new : Char} (h : old ∉ s) :
    pyReplace s old new = s := by
  unfold pyReplace
  apply list_map_eq_self
  intro c hc
  rw [if_neg]
  intro he
  subst he
  exact h hc

/-! ## C9 — the payload round trip and the single-quote replace -/

/-- C9: the producer-to-worker payload round trip is faithful exactly on
the quote-free fragment: for every payload whose `json.dumps` serialization
contains no single quote, the worker's decode (which first replaces every
single quote by a double quote) returns the payload unchanged; and for the
payload `{"msg": "it's"}`, whose serialization contains an apostrophe, the
replace corrupts the text and the decode fails. -/
theorem c9_single_quote_boundary :
    (∀ p : Json, sqCh ∉ dumpVal p →
      json_loads (pyReplace (dumpVal p) sqCh dqCh) = some p) ∧
    sqCh ∈ dumpVal jsonApos ∧
    json_loads (pyReplace (dumpVal jsonApos) sqCh dqCh) = none := by
  refine ⟨?_, ?_, ?_⟩
  · intro p hp
    rw [pyReplace_id hp]
    exact json_roundtrip p
  · decide
  · rfl

/-- C9 witness: the round-trip branch applied to the quote-free payload
`{"a": 1}`. -/
theorem c9_witness :
    sqCh ∉ dumpVal (Json.obj (.cons ['a'] (.num 1) .nil)) ∧
    json_loads (pyReplace
        (dumpVal (Json.obj (.cons ['a'] (.num 1) .nil))) sqCh dqCh) =
      some (Json.obj (.cons ['a'] (.num 1) .nil)) :=
  ⟨by decide,
   c9_single_quote_boundary.1 (Json.obj (.cons ['a'] (.num 1) .nil))
     (by decide)⟩

end QTaskDist
